import Mathlib

/-!
# UART framed-packet protocol: encoder and decoder embedding

Shallow embedding of the packet framing protocol implemented by
`tools/test_uart_protocol.py` (encoder, `create_packet`) and
`tools/uart_monitor.py` (decoder loop in `main`, `verify_checksum`,
`decode_packet` and its per-type helpers).

Bytes are modelled as `Nat` (the Python code manipulates ints in 0..255
obtained by indexing `bytes`). A byte stream is a `List Nat`; the serial
port's `read(n)` on a finite stream returns `min n remaining` bytes, which
models the timeout/end-of-stream behaviour the claims quantify over. A
Python exception escaping the decoder loop is modelled as a terminal
`Event.crashed` entry in the event trace.
-/

namespace UartProto

/-- `PACKET_START` sentinel byte (uart_monitor.py line 20 and
test_uart_protocol.py line 21). -/
def PACKET_START : Nat := 0xAA

/-- XOR-fold of a byte list, starting from 0: the running checksum both
scripts compute with `checksum ^= byte`. -/
def xorAll (l : List Nat) : Nat := l.foldl (fun acc b => acc ^^^ b) 0

/-- Python errors that the decoder code can raise.  `nameError` is the
`NameError` raised by evaluating the undefined name `pkt_STATUS` at
uart_monitor.py line 78 (the defined constant is `PKT_STATUS`). -/
inductive PyErr where
  | nameError
deriving DecidableEq, Repr

/-- Encode-time failure: `struct.pack` with format `<H` (test_uart_protocol.py
line 32) rejects a length above 65535; the spec's error taxonomy names this
condition `PayloadTooLarge`. -/
inductive EncodeError where
  | payloadTooLarge
deriving DecidableEq, Repr

/-- The payload argument of `create_packet`: Python accepts either `str`
(encoded to UTF-8 first, test_uart_protocol.py lines 25-26) or bytes. -/
inductive PyPayload where
  | str (s : String)
  | bytes (b : List Nat)

/-- UTF-8 byte sequence of a string, as `payload.encode('utf-8')` produces. -/
def utf8Bytes (s : String) : List Nat := (s.toUTF8.data.toList).map (fun b => b.toNat)

/-- Bytes actually framed by `create_packet`: a `str` payload is first
UTF-8-encoded (test_uart_protocol.py lines 25-26). -/
def payloadBytes : PyPayload → List Nat
  | .str s => utf8Bytes s
  | .bytes b => b

/-- Encoder `create_packet` (test_uart_protocol.py lines 23-41):
start byte, type byte, little-endian 16-bit length, payload, then the XOR
checksum of everything so far.  `struct.pack('<H', n)` yields
`[n % 256, n / 256]` and fails when `n > 65535`. -/
def create_packet (pkt_type : Nat) (payload : PyPayload) : Except EncodeError (List Nat) :=
  let pb := payloadBytes payload
  if pb.length > 65535 then .error .payloadTooLarge
  else
    let packet := PACKET_START :: pkt_type :: (pb.length % 256) :: (pb.length / 256) :: pb
    .ok (packet ++ [xorAll packet])

/-- `verify_checksum` (uart_monitor.py lines 22-28): XOR-fold all bytes but
the last and compare with the last byte. -/
def verify_checksum (packet_bytes : List Nat) : Bool :=
  decide (xorAll packet_bytes.dropLast = packet_bytes.getLastD 0)

/-- Decoded message content, mirroring the information content of the
strings `decode_keyboard_report` / `decode_mouse_report` format (console
string formatting itself is an external concern per the spec). -/
inductive Msg where
  | keyboard (mods : List String) (keys : List Nat)
  | invalidKeyboardLength (n : Nat)
  | mouse (buttons : List String) (x y : Int)
  | invalidMouseLength (n : Nat)
deriving DecidableEq, Repr

/-- Modifier-bit names (uart_monitor.py lines 39-47), in the order the code
appends them. -/
def mod_names (modifier : Nat) : List String :=
  (if modifier &&& 0x01 ≠ 0 then ["LCTRL"] else []) ++
  (if modifier &&& 0x02 ≠ 0 then ["LSHIFT"] else []) ++
  (if modifier &&& 0x04 ≠ 0 then ["LALT"] else []) ++
  (if modifier &&& 0x08 ≠ 0 then ["LGUI"] else []) ++
  (if modifier &&& 0x10 ≠ 0 then ["RCTRL"] else []) ++
  (if modifier &&& 0x20 ≠ 0 then ["RSHIFT"] else []) ++
  (if modifier &&& 0x40 ≠ 0 then ["RALT"] else []) ++
  (if modifier &&& 0x80 ≠ 0 then ["RGUI"] else [])

/-- `decode_keyboard_report` (uart_monitor.py lines 30-52): an 8-byte payload
yields modifier names and the nonzero keycodes of `payload[2:8]`; any other
length is reported as an invalid-length event. -/
def decode_keyboard_report (payload : List Nat) : Msg :=
  if payload.length ≠ 8 then .invalidKeyboardLength payload.length
  else .keyboard (mod_names (payload.getD 0 0))
    (((payload.drop 2).take 6).filter (fun k => k ≠ 0))

/-- Two's-complement reading of one byte, as `struct.unpack('b', ...)` does
(uart_monitor.py lines 60-61). -/
def sint8 (b : Nat) : Int := if b < 128 then (b : Int) else (b : Int) - 256

/-- Button-bit names (uart_monitor.py lines 63-66). -/
def btn_names (buttons : Nat) : List String :=
  (if buttons &&& 0x01 ≠ 0 then ["LEFT"] else []) ++
  (if buttons &&& 0x02 ≠ 0 then ["RIGHT"] else []) ++
  (if buttons &&& 0x04 ≠ 0 then ["MIDDLE"] else [])

/-- `decode_mouse_report` (uart_monitor.py lines 54-70): needs at least 3
bytes; byte 0 is the button bitmask, bytes 1 and 2 are signed 8-bit deltas;
further bytes are never read. -/
def decode_mouse_report (payload : List Nat) : Msg :=
  if payload.length < 3 then .invalidMouseLength payload.length
  else .mouse (btn_names (payload.getD 0 0))
    (sint8 (payload.getD 1 0)) (sint8 (payload.getD 2 0))

/-- `decode_packet` (uart_monitor.py lines 72-86).  Types `0x01` and `0x02`
dispatch to the keyboard/mouse decoders.  Every other type reaches
`elif pkt_STATUS:` on line 78, which evaluates the undefined name
`pkt_STATUS` and raises `NameError`; the `PKT_ACK` and unknown-type branches
on lines 83-86 are therefore unreachable. -/
def decode_packet (pkt_type : Nat) (payload : List Nat) : Except PyErr Msg :=
  if pkt_type = 0x01 then .ok (decode_keyboard_report payload)
  else if pkt_type = 0x02 then .ok (decode_mouse_report payload)
  else .error .nameError

/-- Seeking phase of `main` (uart_monitor.py lines 104-109): drop bytes until
a `PACKET_START` byte, return the stream after it.  `none` models a stream
with no start marker left: the Python loop then blocks on `ser.read(1)`
forever and produces no further events. -/
def seekStart : List Nat → Option (List Nat)
  | [] => none
  | b :: rest => if b = PACKET_START then some rest else seekStart rest

/-- Outcome of one framing attempt after a start marker was found. -/
inductive FrameResult where
  | headerFail
  | bodyFail (expected actual : Nat)
  | checksumFail
  | framed (pkt_type : Nat) (payload : List Nat)
deriving DecidableEq, Repr

/-- Header/body/checksum phase of one `main` loop iteration
(uart_monitor.py lines 111-133), applied to the stream right after a start
marker.  `ser.read(n)` on the finite stream takes `min n remaining` bytes.
Returns the frame outcome and the unconsumed remainder of the stream. -/
def readFrame (rest : List Nat) : FrameResult × List Nat :=
  let header := rest.take 3
  let afterHeader := rest.drop 3
  if header.length ≠ 3 then (.headerFail, afterHeader)
  else
    let pkt_type := header.getD 0 0
    let pkt_len := header.getD 1 0 + 256 * header.getD 2 0
    let data := afterHeader.take (pkt_len + 1)
    let afterData := afterHeader.drop (pkt_len + 1)
    if data.length ≠ pkt_len + 1 then (.bodyFail (pkt_len + 1) data.length, afterData)
    else
      let payload := data.dropLast
      let packet_bytes := PACKET_START :: pkt_type :: header.getD 1 0 :: header.getD 2 0 :: data
      if verify_checksum packet_bytes then (.framed pkt_type payload, afterData)
      else (.checksumFail, afterData)

/-- One full iteration of the `while True` loop in `main`
(uart_monitor.py lines 102-133), up to but not including the
`decode_packet` dispatch: seek a start marker, then read and validate one
frame.  `none` when no start marker remains in the stream. -/
def mainStep (s : List Nat) : Option (FrameResult × List Nat) :=
  (seekStart s).map readFrame

/-- Events observable from the decoder loop: the `print`ed error lines, the
decoded packets, and a crash of the loop by an escaping Python exception. -/
inductive Event where
  | decoded (m : Msg)
  | headerReadFailure
  | bodyReadFailure (expected actual : Nat)
  | checksumError
  | crashed (e : PyErr)
deriving DecidableEq, Repr

/-- Fuel-indexed decoder loop.  Each iteration consumes at least one byte of
the stream, so `s.length + 1` fuel (see `decodeLoop`) never runs out before
the stream does. -/
def decodeLoopAux : Nat → List Nat → List Event
  | 0, _ => []
  | fuel + 1, s =>
    match mainStep s with
    | none => []
    | some (.headerFail, rest) => .headerReadFailure :: decodeLoopAux fuel rest
    | some (.bodyFail expected actual, rest) =>
        .bodyReadFailure expected actual :: decodeLoopAux fuel rest
    | some (.checksumFail, rest) => .checksumError :: decodeLoopAux fuel rest
    | some (.framed pkt_type payload, rest) =>
        match decode_packet pkt_type payload with
        | .ok m => .decoded m :: decodeLoopAux fuel rest
        | .error e => [.crashed e]

/-- The decoder loop of `main` (uart_monitor.py lines 101-137) run over a
finite byte stream: the list of events it emits before the stream is
exhausted (or the loop dies to an exception). -/
def decodeLoop (s : List Nat) : List Event := decodeLoopAux (s.length + 1) s

/-- Flip bit `bit` of the byte at index `i` of a byte sequence (out-of-range
`i` leaves the list unchanged, as `List.set` does). -/
def flipBit (i bit : Nat) (l : List Nat) : List Nat :=
  l.set i ((l.getD i 0) ^^^ 2 ^ bit)

/-! ## Helper lemmas -/

/-- XOR-folding from an arbitrary accumulator factors through `xorAll`. -/
theorem foldl_xor_eq (x : Nat) (l : List Nat) :
    l.foldl (fun acc b => acc ^^^ b) x = x ^^^ l.foldl (fun acc b => acc ^^^ b) 0 := by
  induction l generalizing x with
  | nil => simp
  | cons a l ih =>
    simp only [List.foldl_cons]
    rw [ih (x ^^^ a), ih (0 ^^^ a)]
    simp [Nat.xor_assoc]

/-- `xorAll` unfolds on a cons cell. -/
theorem xorAll_cons (a : Nat) (l : List Nat) : xorAll (a :: l) = a ^^^ xorAll l := by
  simp only [xorAll, List.foldl_cons]
  rw [foldl_xor_eq]
  simp

/-- Bytes different from the start marker are skipped silently. -/
theorem seekStart_append (noise s : List Nat) (hn : PACKET_START ∉ noise) :
    seekStart (noise ++ s) = seekStart s := by
  induction noise with
  | nil => rfl
  | cons b noise ih =>
    simp only [List.mem_cons, not_or] at hn
    simp only [List.cons_append, seekStart]
    rw [if_neg (fun h => hn.1 h.symm)]
    exact ih hn.2

/-- The seek phase consumes everything up to and including the first start
marker. -/
theorem seekStart_cons_start (s : List Nat) : seekStart (PACKET_START :: s) = some s := by
  simp [seekStart]

/-- Master framing lemma: right after a start marker, a stream holding a
complete frame — type byte, length bytes, a payload of exactly the declared
length, a checksum byte — decodes to `framed` exactly when the checksum byte
is the XOR of start, type, length and payload bytes, and to `checksumFail`
otherwise; either way exactly the frame's bytes are consumed. -/
theorem readFrame_complete (t l0 l1 cs : Nat) (q rest : List Nat)
    (hq : q.length = l0 + 256 * l1) :
    readFrame (t :: l0 :: l1 :: (q ++ cs :: rest)) =
      (if xorAll (PACKET_START :: t :: l0 :: l1 :: q) = cs
        then .framed t q else .checksumFail, rest) := by
  have htake : (q ++ cs :: rest).take (q.length + 1) = q ++ [cs] := by
    have h : (q ++ cs :: rest).take (q.length + 1) = q ++ (cs :: rest).take 1 :=
      List.take_append 1
    simpa using h
  have hdrop : (q ++ cs :: rest).drop (q.length + 1) = rest := by
    simp
  have hpb : PACKET_START :: t :: l0 :: l1 :: (q ++ [cs]) =
      (PACKET_START :: t :: l0 :: l1 :: q) ++ [cs] := by simp
  simp only [readFrame, List.take_succ_cons, List.take_zero, List.drop_succ_cons,
    List.drop_zero, List.getD_cons_zero, List.getD_cons_succ, List.length_cons,
    List.length_nil, ← hq, htake, hdrop]
  norm_num
  rw [hpb, verify_checksum, List.dropLast_concat, List.getLastD_concat]
  by_cases h : xorAll (PACKET_START :: t :: l0 :: l1 :: q) = cs <;> simp [h]

/-- A truncated header (fewer than 3 bytes left after the marker) is a
header-read failure consuming the rest of the stream. -/
theorem readFrame_short_header (h : List Nat) (hh : h.length < 3) :
    readFrame h = (.headerFail, []) := by
  simp only [readFrame]
  rw [List.take_of_length_le (by omega), List.drop_eq_nil_of_le (by omega),
    if_pos (by omega)]

/-- A truncated body (fewer than `length + 1` bytes after a complete header)
is a body-read failure reporting expected and actual counts. -/
theorem readFrame_short_body (t l0 l1 : Nat) (body : List Nat)
    (hb : body.length < l0 + 256 * l1 + 1) :
    readFrame (t :: l0 :: l1 :: body) =
      (.bodyFail (l0 + 256 * l1 + 1) body.length, []) := by
  simp only [readFrame, List.take_succ_cons, List.take_zero, List.drop_succ_cons,
    List.drop_zero, List.getD_cons_zero, List.getD_cons_succ, List.length_cons,
    List.length_nil]
  rw [if_neg (by omega), List.take_of_length_le (by omega),
    List.drop_eq_nil_of_le (by omega), if_pos (by omega)]

/-- An exhausted stream produces no further events, whatever fuel is left. -/
theorem decodeLoopAux_nil (n : Nat) : decodeLoopAux n [] = [] := by
  cases n <;> rfl

/-- `mainStep` on a stream whose first start marker is followed by `r`:
seek succeeds and hands `r` to the framing phase. -/
theorem mainStep_noise (noise r : List Nat) (hn : PACKET_START ∉ noise) :
    mainStep (noise ++ PACKET_START :: r) = some (readFrame r) := by
  rw [mainStep, seekStart_append _ _ hn, seekStart_cons_start, Option.map_some']

/-- XORing one in-range element with a mask changes `xorAll` by that mask. -/
theorem xorAll_set_xor (q : List Nat) (j m : Nat) (hj : j < q.length) :
    xorAll (q.set j (q.getD j 0 ^^^ m)) = xorAll q ^^^ m := by
  induction q generalizing j with
  | nil => simp at hj
  | cons a l ih =>
    cases j with
    | zero =>
      simp only [List.set_cons_zero, List.getD_cons_zero, xorAll_cons]
      rw [Nat.xor_assoc, Nat.xor_assoc, Nat.xor_comm m (xorAll l)]
    | succ j =>
      simp only [List.set_cons_succ, List.getD_cons_succ, xorAll_cons]
      rw [ih j (by simp only [List.length_cons] at hj; omega), ← Nat.xor_assoc]

/-- XOR with a nonzero mask always changes a value. -/
theorem xor_ne_self (a m : Nat) (hm : m ≠ 0) : a ^^^ m ≠ a := by
  intro hc
  apply hm
  have h1 : a ^^^ (a ^^^ m) = m := by
    rw [← Nat.xor_assoc, Nat.xor_self, Nat.zero_xor]
  rw [hc, Nat.xor_self] at h1
  exact h1.symm

/-- Setting the element right after `p` in `p ++ [c]` replaces `c`. -/
theorem set_concat_length (p : List Nat) (c v : Nat) :
    (p ++ [c]).set p.length v = p ++ [v] := by
  induction p with
  | nil => rfl
  | cons a p ih => simp [ih]

/-- Reading the element right after `p` in `p ++ [c]` yields `c`. -/
theorem getD_concat_length (p : List Nat) (c : Nat) :
    (p ++ [c]).getD p.length 0 = c := by
  rw [List.getD_append_right p [c] 0 p.length (le_refl _)]
  simp

/-! ## Claim theorems -/

/-- C1: for every message type byte and every payload of at most 65535
bytes, the Encoder succeeds, and feeding its output to the Decoder
(starting in Seeking state on exactly those bytes) finds the start marker,
reads the header and body completely, passes checksum verification, and
recovers exactly the original (type, payload) pair, consuming the whole
stream. -/
theorem C1_encode_decode_roundtrip (t : Nat) (p : List Nat)
    (_ht : t < 256) (_hp : ∀ b ∈ p, b < 256) (hl : p.length ≤ 65535) :
    ∃ wire, create_packet t (.bytes p) = .ok wire ∧
      mainStep wire = some (.framed t p, []) := by
  have hle : ¬ p.length > 65535 := by omega
  refine ⟨(PACKET_START :: t :: (p.length % 256) :: (p.length / 256) :: p) ++
      [xorAll (PACKET_START :: t :: (p.length % 256) :: (p.length / 256) :: p)], ?_, ?_⟩
  · simp only [create_packet, payloadBytes]
    rw [if_neg hle]
  · have hq : p.length = p.length % 256 + 256 * (p.length / 256) :=
      (Nat.mod_add_div _ _).symm
    simp only [List.cons_append, List.nil_append]
    rw [mainStep, seekStart_cons_start, Option.map_some',
      readFrame_complete _ _ _ _ _ _ hq, if_pos rfl]

/-- C1 witness: round trip at type `0x02` with payload `[1, 10, 251]`. -/
theorem C1_encode_decode_roundtrip_witness :
    ∃ wire, create_packet 0x02 (.bytes [1, 10, 251]) = .ok wire ∧
      mainStep wire = some (.framed 0x02 [1, 10, 251], []) :=
  C1_encode_decode_roundtrip 0x02 [1, 10, 251] (by decide) (by decide) (by decide)

/-- C4: for a fully framed packet, the Decoder yields the successful
`framed (type, payload)` outcome iff the received checksum byte is the XOR
of start, type, both length bytes and every payload byte; on mismatch it
yields `checksumFail`, carrying no payload, and the loop then resumes
seeking on the remaining stream. -/
theorem C4_checksum_iff (t l0 l1 cs : Nat) (payload rest : List Nat)
    (h : payload.length = l0 + 256 * l1) :
    (mainStep (PACKET_START :: t :: l0 :: l1 :: (payload ++ cs :: rest)) =
        some (.framed t payload, rest) ↔
      cs = xorAll (PACKET_START :: t :: l0 :: l1 :: payload)) ∧
    (cs ≠ xorAll (PACKET_START :: t :: l0 :: l1 :: payload) →
      mainStep (PACKET_START :: t :: l0 :: l1 :: (payload ++ cs :: rest)) =
        some (.checksumFail, rest)) := by
  have hm : mainStep (PACKET_START :: t :: l0 :: l1 :: (payload ++ cs :: rest)) =
      some (if xorAll (PACKET_START :: t :: l0 :: l1 :: payload) = cs
        then FrameResult.framed t payload else FrameResult.checksumFail, rest) := by
    rw [mainStep, seekStart_cons_start, Option.map_some',
      readFrame_complete _ _ _ _ _ _ h]
  constructor
  · rw [hm]
    by_cases hx : xorAll (PACKET_START :: t :: l0 :: l1 :: payload) = cs
    · rw [if_pos hx]
      exact iff_of_true rfl hx.symm
    · rw [if_neg hx]
      exact iff_of_false (by simp) (fun hc => hx hc.symm)
  · intro hne
    rw [hm, if_neg (fun hx => hne hx.symm)]

/-- C4 witness: a one-byte payload packet with the matching checksum frames
successfully, and any other checksum byte value would be required to equal
the XOR value for that to happen. -/
theorem C4_checksum_iff_witness :
    (mainStep (PACKET_START :: 1 :: 1 :: 0 :: ([7] ++ 173 :: [])) =
        some (.framed 1 [7], []) ↔
      173 = xorAll (PACKET_START :: 1 :: 1 :: 0 :: [7])) ∧
    (173 ≠ xorAll (PACKET_START :: 1 :: 1 :: 0 :: [7]) →
      mainStep (PACKET_START :: 1 :: 1 :: 0 :: ([7] ++ 173 :: [])) =
        some (.checksumFail, [])) :=
  C4_checksum_iff 1 1 0 173 [7] [] (by decide)

/-- C6: a stream ending after a start marker but before the 3 header bytes
are complete yields exactly one `headerReadFailure` and nothing else; a
stream ending after a complete header but before `length + 1` body bytes
yields exactly one `bodyReadFailure` carrying the expected and actual byte
counts and nothing else — in particular no partial or garbage decode event
in either case. -/
theorem C6_truncation (noise1 hdr : List Nat) (hn1 : PACKET_START ∉ noise1)
    (hh : hdr.length < 3) (noise2 : List Nat) (hn2 : PACKET_START ∉ noise2)
    (t l0 l1 : Nat) (body : List Nat) (hb : body.length < l0 + 256 * l1 + 1) :
    decodeLoop (noise1 ++ PACKET_START :: hdr) = [.headerReadFailure] ∧
    decodeLoop (noise2 ++ PACKET_START :: t :: l0 :: l1 :: body) =
      [.bodyReadFailure (l0 + 256 * l1 + 1) body.length] := by
  constructor
  · rw [decodeLoop]
    simp only [decodeLoopAux]
    rw [mainStep_noise _ _ hn1, readFrame_short_header _ hh]
    simp only [decodeLoopAux_nil]
  · rw [decodeLoop]
    simp only [decodeLoopAux]
    rw [mainStep_noise _ _ hn2, readFrame_short_body _ _ _ _ hb]
    simp only [decodeLoopAux_nil]

/-- C6 witness: truncation after the marker plus one header byte, and after
a header announcing ten payload bytes followed by only two. -/
theorem C6_truncation_witness :
    decodeLoop ([1, 2] ++ PACKET_START :: [9]) = [.headerReadFailure] ∧
    decodeLoop ([3] ++ PACKET_START :: 1 :: 10 :: 0 :: [5, 6]) =
      [.bodyReadFailure (10 + 256 * 0 + 1) 2] :=
  C6_truncation [1, 2] [9] (by decide) (by decide) [3] (by decide) 1 10 0 [5, 6]
    (by decide)

/-- C2 (code bug): the decode-dispatch step does NOT produce a reportable
event for every well-formed packet. A well-formed `Status` (0x04) packet —
here with payload "Hi", checksum 141 = XOR(0xAA,4,2,0,72,105) — reaches
`elif pkt_STATUS:` (uart_monitor.py line 78), which evaluates an undefined
name and raises `NameError`, and that exception terminates the decoder
loop. -/
theorem C2_dispatch_raises :
    decode_packet 0x04 [72, 105] = .error .nameError ∧
    decodeLoop [0xAA, 0x04, 2, 0, 72, 105, 141] = [.crashed .nameError] :=
  ⟨rfl, by decide⟩

/-- C3 (code bug): a checksum-valid packet of unrecognized type 0x09 does
NOT produce an unrecognized-type event: dispatch raises `NameError`
(undefined `pkt_STATUS`, uart_monitor.py line 78), and the crash also
prevents the decode of the valid mouse packet that follows it on the
stream. -/
theorem C3_unknown_type_raises :
    decode_packet 0x09 [1, 2, 3] = .error .nameError ∧
    decodeLoop [0xAA, 0x09, 3, 0, 1, 2, 3, 160, 0xAA, 0x02, 3, 0, 1, 10, 251, 91] =
      [.crashed .nameError] :=
  ⟨rfl, by decide⟩

/-- C5 (code bug): a stream of noise, a validly encoded `Ack` packet, more
noise, and a second validly encoded `Ack` packet does NOT yield two
successful decode events: the first packet frames and passes the checksum,
but its dispatch raises `NameError` (uart_monitor.py line 78), killing the
loop before the second packet is read. -/
theorem C5_resync_crash :
    create_packet 0x05 (.bytes []) = .ok [0xAA, 0x05, 0, 0, 0xAF] ∧
    decodeLoop ([1, 2] ++ [0xAA, 0x05, 0, 0, 0xAF] ++ [3] ++ [0xAA, 0x05, 0, 0, 0xAF]) =
      [.crashed .nameError] :=
  ⟨rfl, by decide⟩

/-- C7: the Encoder fails with `payloadTooLarge` exactly on payloads longer
than 65535 bytes; on payloads of length at most 65535 it succeeds, and it
has no other failure mode (any error it ever returns is `payloadTooLarge`,
and only on an oversized payload). -/
theorem C7_encoder_failure_modes (t : Nat) (p : List Nat)
    (_ht : t < 256) (_hp : ∀ b ∈ p, b < 256) :
    (65535 < p.length → create_packet t (.bytes p) = .error .payloadTooLarge) ∧
    (p.length ≤ 65535 → ∃ out, create_packet t (.bytes p) = .ok out) ∧
    (∀ e, create_packet t (.bytes p) = .error e →
      e = .payloadTooLarge ∧ 65535 < p.length) := by
  refine ⟨?_, ?_, ?_⟩
  · intro h
    simp only [create_packet, payloadBytes]
    rw [if_pos h]
  · intro h
    refine ⟨(PACKET_START :: t :: (p.length % 256) :: (p.length / 256) :: p) ++
      [xorAll (PACKET_START :: t :: (p.length % 256) :: (p.length / 256) :: p)], ?_⟩
    simp only [create_packet, payloadBytes]
    rw [if_neg (by omega)]
  · intro e he
    cases e
    by_cases h : p.length > 65535
    · exact ⟨rfl, h⟩
    · simp only [create_packet, payloadBytes] at he
      rw [if_neg h] at he
      exact Except.noConfusion he

/-- C7 witness: a 65536-byte payload is rejected as too large; a one-byte
payload encodes successfully. -/
theorem C7_encoder_failure_modes_witness :
    create_packet 1 (.bytes (List.replicate 65536 0)) = .error .payloadTooLarge ∧
    ∃ out, create_packet 1 (.bytes [7]) = .ok out := by
  constructor
  · exact (C7_encoder_failure_modes 1 (List.replicate 65536 0) (by decide)
      (by intro b hb; rw [List.eq_of_mem_replicate hb]; decide)).1
      (by rw [List.length_replicate]; omega)
  · exact (C7_encoder_failure_modes 1 [7] (by decide) (by decide)).2.1 (by decide)

/-- C8 counterexample: the claim "every single-bit flip of an encoded packet
is detected as ChecksumError" fails. Flipping bit 0 of the start byte of
the encoded (type 0x01, empty-payload) packet — a flip that does not
preserve the XOR relation, as `verify_checksum` rejects the flipped bytes —
leaves a stream with no start marker: the Decoder reports nothing at all,
in particular no checksum error. -/
theorem C8_flip_counterexample :
    create_packet 0x01 (.bytes []) = .ok [0xAA, 0x01, 0, 0, 0xAB] ∧
    flipBit 0 0 [0xAA, 0x01, 0, 0, 0xAB] = [0xAB, 0x01, 0, 0, 0xAB] ∧
    verify_checksum [0xAB, 0x01, 0, 0, 0xAB] = false ∧
    decodeLoop [0xAB, 0x01, 0, 0, 0xAB] = [] :=
  ⟨rfl, rfl, by decide, by decide⟩

/-- C8 amended: a single-bit flip of the type byte (index 1), of a payload
byte (indices 4 .. payload length + 3), or of the checksum byte (index
payload length + 4) of a validly encoded packet is always detected as
`checksumFail` — for such flips there is no coincidental preservation of
the XOR relation at all. (Flips of the start marker or of the two length
bytes disrupt framing instead and need not surface as a checksum error, as
the counterexample shows.) -/
theorem C8_amended_flip_detected (t : Nat) (p : List Nat) (i bit : Nat)
    (_hbit : bit < 8) (hi : i = 1 ∨ (4 ≤ i ∧ i < p.length + 5)) :
    ∀ wire, create_packet t (.bytes p) = .ok wire →
      mainStep (flipBit i bit wire) = some (.checksumFail, []) := by
  intro wire hw
  have hpow : (2 : Nat) ^ bit ≠ 0 := (Nat.two_pow_pos bit).ne'
  have hq : p.length = p.length % 256 + 256 * (p.length / 256) :=
    (Nat.mod_add_div _ _).symm
  by_cases hlen : p.length > 65535
  · simp only [create_packet, payloadBytes] at hw
    rw [if_pos hlen] at hw
    exact Except.noConfusion hw
  simp only [create_packet, payloadBytes] at hw
  rw [if_neg hlen] at hw
  injection hw with hw
  subst hw
  rcases hi with rfl | ⟨hi4, hilt⟩
  · -- type byte
    have hflip : flipBit 1 bit
        ((PACKET_START :: t :: (p.length % 256) :: (p.length / 256) :: p) ++
          [xorAll (PACKET_START :: t :: (p.length % 256) :: (p.length / 256) :: p)]) =
        PACKET_START :: (t ^^^ 2 ^ bit) :: (p.length % 256) :: (p.length / 256) ::
          (p ++ [xorAll (PACKET_START :: t :: (p.length % 256) :: (p.length / 256) :: p)]) := rfl
    rw [hflip, mainStep, seekStart_cons_start, Option.map_some',
      readFrame_complete _ _ _ _ _ _ hq]
    rw [if_neg ?_]
    have h1 : PACKET_START :: (t ^^^ 2 ^ bit) :: (p.length % 256) :: (p.length / 256) :: p =
        (PACKET_START :: t :: (p.length % 256) :: (p.length / 256) :: p).set 1
          ((PACKET_START :: t :: (p.length % 256) :: (p.length / 256) :: p).getD 1 0 ^^^
            2 ^ bit) := rfl
    rw [h1, xorAll_set_xor _ _ _ (by simp)]
    exact xor_ne_self _ _ hpow
  · obtain ⟨j, rfl⟩ : ∃ j, i = j + 4 := ⟨i - 4, by omega⟩
    rcases Nat.lt_or_ge j p.length with hj | hj
    · -- payload byte
      have hflip : flipBit (j + 4) bit
          ((PACKET_START :: t :: (p.length % 256) :: (p.length / 256) :: p) ++
            [xorAll (PACKET_START :: t :: (p.length % 256) :: (p.length / 256) :: p)]) =
          PACKET_START :: t :: (p.length % 256) :: (p.length / 256) ::
            ((p ++ [xorAll (PACKET_START :: t :: (p.length % 256) :: (p.length / 256) :: p)]).set
              j ((p ++ [xorAll (PACKET_START :: t :: (p.length % 256) :: (p.length / 256) :: p)]).getD
                j 0 ^^^ 2 ^ bit)) := rfl
      rw [hflip, List.set_append_left j _ hj, List.getD_append _ _ _ _ hj, mainStep,
        seekStart_cons_start, Option.map_some',
        readFrame_complete _ _ _ _ _ _ (by rw [List.length_set]; exact hq)]
      rw [if_neg ?_]
      have h1 : PACKET_START :: t :: (p.length % 256) :: (p.length / 256) ::
          p.set j (p.getD j 0 ^^^ 2 ^ bit) =
          (PACKET_START :: t :: (p.length % 256) :: (p.length / 256) :: p).set (j + 4)
            ((PACKET_START :: t :: (p.length % 256) :: (p.length / 256) :: p).getD
              (j + 4) 0 ^^^ 2 ^ bit) := rfl
      rw [h1, xorAll_set_xor _ _ _ (by simp only [List.length_cons]; omega)]
      exact xor_ne_self _ _ hpow
    · -- checksum byte
      have hjeq : j = p.length := by omega
      subst hjeq
      have hflip : flipBit (p.length + 4) bit
          ((PACKET_START :: t :: (p.length % 256) :: (p.length / 256) :: p) ++
            [xorAll (PACKET_START :: t :: (p.length % 256) :: (p.length / 256) :: p)]) =
          PACKET_START :: t :: (p.length % 256) :: (p.length / 256) ::
            ((p ++ [xorAll (PACKET_START :: t :: (p.length % 256) :: (p.length / 256) :: p)]).set
              p.length
              ((p ++ [xorAll (PACKET_START :: t :: (p.length % 256) :: (p.length / 256) :: p)]).getD
                p.length 0 ^^^ 2 ^ bit)) := rfl
      rw [hflip, set_concat_length, getD_concat_length, mainStep, seekStart_cons_start,
        Option.map_some', readFrame_complete _ _ _ _ _ _ hq]
      rw [if_neg ?_]
      exact fun h => xor_ne_self _ _ hpow h.symm

/-- C8 amended witness: flipping bit 0 of the type byte of the encoded
(type 0x01, empty payload) packet is caught by the checksum. -/
theorem C8_amended_flip_detected_witness :
    mainStep (flipBit 1 0 [0xAA, 0x01, 0, 0, 0xAB]) = some (.checksumFail, []) :=
  C8_amended_flip_detected 0x01 [] 1 0 (by decide) (Or.inl rfl)
    [0xAA, 0x01, 0, 0, 0xAB] rfl

/-- C9: the mouse-report decode reads payload bytes 1 and 2 as
two's-complement signed 8-bit integers — the concrete payload
`[0x01, 0x0A, 0xFB]` under type 0x02 decodes to buttons {LEFT}, dx = +10,
dy = -5 — and for every payload of length at least 3, bytes beyond index 2
do not influence the result. -/
theorem C9_mouse_signed_decode :
    decode_packet 0x02 [0x01, 0x0A, 0xFB] = .ok (.mouse ["LEFT"] 10 (-5)) ∧
    ∀ (b0 b1 b2 : Nat) (extra : List Nat),
      decode_mouse_report (b0 :: b1 :: b2 :: extra) =
        .mouse (btn_names b0) (sint8 b1) (sint8 b2) := by
  refine ⟨rfl, ?_⟩
  intro b0 b1 b2 extra
  simp only [decode_mouse_report, List.length_cons]
  rw [if_neg (by omega)]
  rfl

/-- C10: the Encoder accepts a text string as payload by first encoding it
as UTF-8 and then framing the bytes exactly as a byte payload: encoding a
string equals encoding its UTF-8 byte sequence, illustrated concretely on
the string "Hi". -/
theorem C10_string_payload_utf8 :
    (∀ (t : Nat) (s : String),
      create_packet t (.str s) = create_packet t (.bytes (utf8Bytes s))) ∧
    create_packet 0x04 (.str "Hi") = .ok [0xAA, 0x04, 2, 0, 72, 105, 141] :=
  ⟨fun _ _ => rfl, rfl⟩

end UartProto
